import Mathlib

/-!
Verification of the agnostica runtime core: the HTTP request pipeline
(`HTTPClientBase.request`, `handle_message_parameters` in `http.py`), the
streaming connection and its liveness monitor (`WebSocket`, `Heartbeater`
in `gateway.py`), and the mention-fill subsystem (`Mentions.fill` in
`mixins.py`).  Each Python routine is embedded as an executable Lean
function over explicit environments (server responses, fetch oracles),
and the behavioural claims of the specification are settled against the
embedding.
-/

set_option autoImplicit false

namespace Agnostica

/-! ## The request pipeline (`http.py`, `HTTPClientBase.request`)

An HTTP attempt either raises an `OSError` with an errno or produces a
response with a status code, an optional parsed `retry-after` header and a
decoded body.  The environment maps the loop counter `tries` to the result
of the attempt issued in that iteration. -/

structure Response where
  status : Nat
  retryAfter : Option ℚ
  deriving DecidableEq, Repr

inductive AttemptResult where
  | osError (errno : Int)
  | resp (r : Response) (data : String)
  deriving DecidableEq, Repr

inductive ReqOutcome where
  | success (data : String)
  | forbidden (r : Response) (data : String)
  | notFound (r : Response) (data : String)
  | serverError (r : Response) (data : String)
  | httpError (r : Response) (data : String)
  | transportError (errno : Int)
  | unreachable
  deriving DecidableEq, Repr

structure ReqTrace where
  outcome : ReqOutcome
  attempts : Nat
  slept : ℚ
  deriving DecidableEq, Repr

def retryableStatus (s : Nat) : Bool :=
  s == 500 || s == 502 || s == 504 || s == 524

def retryableErrno (e : Int) : Bool :=
  e == 54 || e == 10054

def backoff (tries : Nat) : ℚ :=
  1 + (tries : ℚ) * 2

def afterLoop : Option (Response × String) → ReqTrace
  | none => ⟨.unreachable, 0, 0⟩
  | some (r, d) => if 500 ≤ r.status then ⟨.serverError r d, 0, 0⟩ else ⟨.httpError r d, 0, 0⟩

def requestAux (env : Nat → AttemptResult) : Nat → Nat → Option (Response × String) → ReqTrace
  | 0, _, last => afterLoop last
  | fuel + 1, tries, last =>
    match env tries with
    | .osError errno =>
      if tries < 4 ∧ retryableErrno errno then
        let t := requestAux env fuel (tries + 1) last
        ⟨t.outcome, t.attempts + 1, t.slept + backoff tries⟩
      else ⟨.transportError errno, 1, 0⟩
    | .resp r d =>
      if 200 ≤ r.status ∧ r.status < 300 then ⟨.success d, 1, 0⟩
      else if r.status = 429 then
        let t := requestAux env fuel (tries + 1) (some (r, d))
        ⟨t.outcome, t.attempts + 1, t.slept + (r.retryAfter.getD (backoff tries))⟩
      else if retryableStatus r.status then
        let t := requestAux env fuel (tries + 1) (some (r, d))
        ⟨t.outcome, t.attempts + 1, t.slept + backoff tries⟩
      else if r.status = 403 then ⟨.forbidden r d, 1, 0⟩
      else if r.status = 404 then ⟨.notFound r d, 1, 0⟩
      else if 500 ≤ r.status then ⟨.serverError r d, 1, 0⟩
      else ⟨.httpError r d, 1, 0⟩

def request (env : Nat → AttemptResult) : ReqTrace :=
  requestAux env 5 0 none

theorem requestAux_resp_2xx (env : Nat → AttemptResult) (fuel tries : Nat)
    (last : Option (Response × String)) (r : Response) (d : String)
    (h : env tries = .resp r d) (h2 : 200 ≤ r.status) (h3 : r.status < 300) :
    requestAux env (fuel + 1) tries last = ⟨.success d, 1, 0⟩ := by
  simp [requestAux, h, h2, h3]

theorem retryableStatus_facts (s : Nat) (hr : retryableStatus s = true) :
    500 ≤ s ∧ s ≠ 429 ∧ ¬ (200 ≤ s ∧ s < 300) := by
  simp only [retryableStatus, Bool.or_eq_true, beq_iff_eq] at hr
  omega

theorem requestAux_resp_retry5xx (env : Nat → AttemptResult) (fuel tries : Nat)
    (last : Option (Response × String)) (r : Response) (d : String)
    (h : env tries = .resp r d) (hr : retryableStatus r.status = true) :
    requestAux env (fuel + 1) tries last =
      ⟨(requestAux env fuel (tries + 1) (some (r, d))).outcome,
       (requestAux env fuel (tries + 1) (some (r, d))).attempts + 1,
       (requestAux env fuel (tries + 1) (some (r, d))).slept + backoff tries⟩ := by
  obtain ⟨h500, h429, h2xx⟩ := retryableStatus_facts r.status hr
  simp [requestAux, h, h2xx, h429, hr]

theorem requestAux_resp_5xx_noretry (env : Nat → AttemptResult) (fuel tries : Nat)
    (last : Option (Response × String)) (r : Response) (d : String)
    (h : env tries = .resp r d) (h500 : 500 ≤ r.status) (hr : retryableStatus r.status = false) :
    requestAux env (fuel + 1) tries last = ⟨.serverError r d, 1, 0⟩ := by
  have h2xx : ¬ (200 ≤ r.status ∧ r.status < 300) := by omega
  have h429 : r.status ≠ 429 := by omega
  have h403 : r.status ≠ 403 := by omega
  have h404 : r.status ≠ 404 := by omega
  simp [requestAux, h, h2xx, h429, hr, h403, h404, h500]

theorem requestAux_attempts_le (env : Nat → AttemptResult) :
    ∀ (fuel tries : Nat) (last : Option (Response × String)),
      (requestAux env fuel tries last).attempts ≤ fuel := by
  intro fuel
  induction fuel with
  | zero =>
    intro tries last
    rcases last with _ | ⟨r, d⟩
    · simp [requestAux, afterLoop]
    · simp only [requestAux, afterLoop]
      split <;> simp
  | succ n ih =>
    intro tries last
    simp only [requestAux]
    split
    · split
      · exact Nat.succ_le_succ (ih _ _)
      · simp
    · split
      · simp
      split
      · exact Nat.succ_le_succ (ih _ _)
      split
      · exact Nat.succ_le_succ (ih _ _)
      split
      · simp
      split
      · simp
      split <;> simp

theorem requestAux_retry5xx_outcome (env : Nat → AttemptResult) (fuel tries : Nat)
    (last : Option (Response × String)) (r : Response) (d : String)
    (h : env tries = .resp r d) (hr : retryableStatus r.status = true) :
    (requestAux env (fuel + 1) tries last).outcome =
      (requestAux env fuel (tries + 1) (some (r, d))).outcome := by
  rw [requestAux_resp_retry5xx env fuel tries last r d h hr]

theorem requestAux_retry5xx_attempts (env : Nat → AttemptResult) (fuel tries : Nat)
    (last : Option (Response × String)) (r : Response) (d : String)
    (h : env tries = .resp r d) (hr : retryableStatus r.status = true) :
    (requestAux env (fuel + 1) tries last).attempts =
      (requestAux env fuel (tries + 1) (some (r, d))).attempts + 1 := by
  rw [requestAux_resp_retry5xx env fuel tries last r d h hr]

theorem requestAux_retry5xx_slept (env : Nat → AttemptResult) (fuel tries : Nat)
    (last : Option (Response × String)) (r : Response) (d : String)
    (h : env tries = .resp r d) (hr : retryableStatus r.status = true) :
    (requestAux env (fuel + 1) tries last).slept =
      (requestAux env fuel (tries + 1) (some (r, d))).slept + backoff tries := by
  rw [requestAux_resp_retry5xx env fuel tries last r d h hr]

/-- The environment of the C1 scenario: the server responds 503 on the first
two attempts and 201 afterwards. -/
def env503then201 : Nat → AttemptResult := fun i =>
  if i ≤ 1 then .resp ⟨503, none⟩ "error-body" else .resp ⟨201, none⟩ "created"

/-- Claim C1 counterexample: with the server answering 503 on attempts 1 and 2
and 201 on attempt 3, `request` raises `PlatformServerError` on the very first
attempt (503 is not in the retry set 500/502/504/524), so the overall result is
not success and only one attempt is issued. -/
theorem request_503_counterexample :
    request env503then201 =
      ⟨.serverError ⟨503, none⟩ "error-body", 1, 0⟩ := by
  decide

/-- Claim C1 (amended): for every execution of `HTTPClientBase.request` in
which the server responds with a retryable server status (one of 500, 502, 504
or 524) on attempts 1 and 2 and a 2xx status on attempt 3, the overall result
is success with the decoded body of attempt 3, exactly three attempts are
issued, and the total slept time is at least the sum of the first two backoff
delays. -/
theorem request_retryable_5xx_then_2xx (env : Nat → AttemptResult)
    (r0 r1 r2 : Response) (d0 d1 body : String)
    (h0 : env 0 = .resp r0 d0) (h1 : env 1 = .resp r1 d1) (h2 : env 2 = .resp r2 body)
    (hr0 : retryableStatus r0.status = true) (hr1 : retryableStatus r1.status = true)
    (h2xx : 200 ≤ r2.status ∧ r2.status < 300) :
    (request env).outcome = .success body ∧
    (request env).attempts = 3 ∧
    backoff 0 + backoff 1 ≤ (request env).slept := by
  have e2 : requestAux env 3 2 (some (r1, d1)) = ⟨.success body, 1, 0⟩ :=
    requestAux_resp_2xx env 2 2 (some (r1, d1)) r2 body h2 h2xx.1 h2xx.2
  refine ⟨?_, ?_, ?_⟩
  · show (requestAux env 5 0 none).outcome = _
    rw [requestAux_retry5xx_outcome env 4 0 none r0 d0 h0 hr0,
      requestAux_retry5xx_outcome env 3 1 (some (r0, d0)) r1 d1 h1 hr1, e2]
  · show (requestAux env 5 0 none).attempts = 3
    rw [requestAux_retry5xx_attempts env 4 0 none r0 d0 h0 hr0,
      requestAux_retry5xx_attempts env 3 1 (some (r0, d0)) r1 d1 h1 hr1, e2]
  · show backoff 0 + backoff 1 ≤ (requestAux env 5 0 none).slept
    rw [requestAux_retry5xx_slept env 4 0 none r0 d0 h0 hr0,
      requestAux_retry5xx_slept env 3 1 (some (r0, d0)) r1 d1 h1 hr1, e2]
    show backoff 0 + backoff 1 ≤ (0 : ℚ) + backoff 1 + backoff 0
    ring_nf
    exact le_refl _

/-- The amended C1 scenario at a concrete input: 500 twice, then 201. -/
def env500then201 : Nat → AttemptResult := fun i =>
  if i ≤ 1 then .resp ⟨500, none⟩ "oops" else .resp ⟨201, none⟩ "created"

/-- Claim C1 witness: the amended theorem applied to the concrete environment
that answers 500 on attempts 1 and 2 and 201 on attempt 3. -/
theorem request_retryable_5xx_then_2xx_witness :
    (request env500then201).outcome = .success "created" ∧
    (request env500then201).attempts = 3 ∧
    backoff 0 + backoff 1 ≤ (request env500then201).slept :=
  request_retryable_5xx_then_2xx env500then201 ⟨500, none⟩ ⟨500, none⟩ ⟨201, none⟩
    "oops" "oops" "created" rfl rfl rfl rfl rfl (by decide)

/-- Claim C5: if an execution of `request` makes 5 attempts and every attempt
produced a response with a 5xx status, the outcome is `PlatformServerError`
carrying the last response and its decoded body; and no execution of `request`
ever performs more than 5 HTTP attempts. -/
theorem request_exhausts_at_5_attempts (env : Nat → AttemptResult)
    (h5 : ∀ i, i < 5 → ∃ r d, env i = .resp r d ∧ 500 ≤ r.status)
    (hatt : (request env).attempts = 5) :
    (∃ r d, env 4 = .resp r d ∧ (request env).outcome = .serverError r d) ∧
    ∀ env2 : Nat → AttemptResult, (request env2).attempts ≤ 5 := by
  refine ⟨?_, fun env2 => requestAux_attempts_le env2 5 0 none⟩
  obtain ⟨r0, d0, he0, hs0⟩ := h5 0 (by omega)
  obtain ⟨r1, d1, he1, hs1⟩ := h5 1 (by omega)
  obtain ⟨r2, d2, he2, hs2⟩ := h5 2 (by omega)
  obtain ⟨r3, d3, he3, hs3⟩ := h5 3 (by omega)
  obtain ⟨r4, d4, he4, hs4⟩ := h5 4 (by omega)
  refine ⟨r4, d4, he4, ?_⟩
  replace hatt : (requestAux env 5 0 none).attempts = 5 := hatt
  by_cases hr0 : retryableStatus r0.status = true
  case neg =>
    rw [requestAux_resp_5xx_noretry env 4 0 none r0 d0 he0 hs0 (by simpa using hr0)] at hatt
    simp at hatt
  case pos =>
  rw [requestAux_retry5xx_attempts env 4 0 none r0 d0 he0 hr0] at hatt
  by_cases hr1 : retryableStatus r1.status = true
  case neg =>
    rw [requestAux_resp_5xx_noretry env 3 1 (some (r0, d0)) r1 d1 he1 hs1
      (by simpa using hr1)] at hatt
    simp at hatt
  case pos =>
  rw [requestAux_retry5xx_attempts env 3 1 (some (r0, d0)) r1 d1 he1 hr1] at hatt
  by_cases hr2 : retryableStatus r2.status = true
  case neg =>
    rw [requestAux_resp_5xx_noretry env 2 2 (some (r1, d1)) r2 d2 he2 hs2
      (by simpa using hr2)] at hatt
    simp at hatt
  case pos =>
  rw [requestAux_retry5xx_attempts env 2 2 (some (r1, d1)) r2 d2 he2 hr2] at hatt
  by_cases hr3 : retryableStatus r3.status = true
  case neg =>
    rw [requestAux_resp_5xx_noretry env 1 3 (some (r2, d2)) r3 d3 he3 hs3
      (by simpa using hr3)] at hatt
    simp at hatt
  case pos =>
  show (requestAux env 5 0 none).outcome = _
  rw [requestAux_retry5xx_outcome env 4 0 none r0 d0 he0 hr0,
    requestAux_retry5xx_outcome env 3 1 (some (r0, d0)) r1 d1 he1 hr1,
    requestAux_retry5xx_outcome env 2 2 (some (r1, d1)) r2 d2 he2 hr2,
    requestAux_retry5xx_outcome env 1 3 (some (r2, d2)) r3 d3 he3 hr3]
  by_cases hr4 : retryableStatus r4.status = true
  case neg =>
    rw [requestAux_resp_5xx_noretry env 0 4 (some (r3, d3)) r4 d4 he4 hs4 (by simpa using hr4)]
  case pos =>
    rw [requestAux_retry5xx_outcome env 0 4 (some (r3, d3)) r4 d4 he4 hr4]
    simp [requestAux, afterLoop, hs4]

/-- A concrete environment answering 500 on every attempt. -/
def envAll500 : Nat → AttemptResult := fun _ => .resp ⟨500, none⟩ "boom"

/-- Claim C5 witness: the theorem applied to the environment that answers 500
on every attempt, whose execution makes exactly 5 attempts. -/
theorem request_exhausts_at_5_attempts_witness :
    (∃ r d, envAll500 4 = .resp r d ∧ (request envAll500).outcome = .serverError r d) ∧
    ∀ env2 : Nat → AttemptResult, (request env2).attempts ≤ 5 :=
  request_exhausts_at_5_attempts envAll500
    (fun i _ => ⟨⟨500, none⟩, "boom", rfl, le_refl 500⟩) (by decide)

/-! ## The streaming connection and liveness monitor (`gateway.py`)

Python floats appear only as `perf_counter` time stamps and the latency value,
which starts out as `float inf`; they are modelled by rationals together with
an explicit infinity. -/

inductive PyFloat where
  | inf
  | val (q : ℚ)
  deriving DecidableEq, Repr

inductive PyExc where
  | attributeError
  | exc (tag : String)
  deriving DecidableEq, Repr

/-- State of a `Heartbeater` thread.  `main_thread_id` models the attribute
`_main_thread_id` read in `run`: `__init__` never assigns it, so a freshly
constructed monitor carries `none`. -/
structure Heartbeater where
  interval : ℚ
  stop_ev : Bool
  last_ping : ℚ
  last_pong : ℚ
  latency : PyFloat
  main_thread_id : Option Nat
  deriving DecidableEq, Repr

def Heartbeater.init (interval now : ℚ) : Heartbeater :=
  ⟨interval, false, now, now, .inf, none⟩

def Heartbeater.stop (h : Heartbeater) : Heartbeater :=
  { h with stop_ev := true }

def Heartbeater.record_pong (h : Heartbeater) (now : ℚ) : Heartbeater :=
  { h with last_pong := now, latency := .val (now - h.last_ping) }

/-- Whether `record_pong` logs the behind warning for the newly stored latency. -/
def Heartbeater.record_pong_warns (h : Heartbeater) (now : ℚ) : Bool :=
  decide (10 < now - h.last_ping)

instance {ε α : Type} [DecidableEq ε] [DecidableEq α] : DecidableEq (Except ε α) := fun a b =>
  match a, b with
  | .ok x, .ok y => decidable_of_iff (x = y) (by simp)
  | .error x, .error y => decidable_of_iff (x = y) (by simp)
  | .ok _, .error _ => isFalse (fun h => Except.noConfusion h)
  | .error _, .ok _ => isFalse (fun h => Except.noConfusion h)

/-- Behaviour of the scheduled probe future as seen from the monitor thread:
either scheduling raises (the I/O loop is gone), or the future resolves after
a number of 10-unit timeout slices with a result (success, or the exception
the probe coroutine raised). -/
inductive ProbeOutcome where
  | scheduled (timeouts : Nat) (result : Except PyExc Unit)
  | scheduleRaise (e : PyExc)
  deriving DecidableEq, Repr

/-- The inner wait loop around `f.result(10)`.  Each timeout slice adds 10 to
`total`, then reads `self._main_thread_id` to snapshot the loop thread frame:
when the attribute is absent the read raises `AttributeError` (escaping the
inner `except KeyError`), otherwise the stall warning is logged with the
current `total`.  Returns the warnings logged and the final result of the
wait. -/
def stallWait (mtid : Option Nat) : Nat → Except PyExc Unit → Nat → List Nat × Except PyExc Unit
  | 0, res, _ => ([], res)
  | k + 1, res, total =>
    match mtid with
    | none => ([], .error .attributeError)
    | some _ =>
      let (ws, r) := stallWait mtid k res (total + 10)
      ((total + 10) :: ws, r)

inductive HBStatus where
  | running
  | stopped
  | raised (e : PyExc)
  deriving DecidableEq, Repr

structure HBIterResult where
  warnings : List Nat
  hb : Heartbeater
  status : HBStatus
  deriving DecidableEq, Repr

/-- One iteration of the `while` loop in `Heartbeater.run`: the probe is
scheduled onto the I/O loop, then the thread blocks on the future.  Any
exception escaping the wait is absorbed by the blanket handler, which calls
`stop`; on success `_last_ping` is updated to the current time. -/
def Heartbeater.runIteration (h : Heartbeater) (p : ProbeOutcome) (now : ℚ) : HBIterResult :=
  match p with
  | .scheduleRaise e => ⟨[], h, .raised e⟩
  | .scheduled k res =>
    match stallWait h.main_thread_id k res 0 with
    | (ws, .ok _) => ⟨ws, { h with last_ping := now }, .running⟩
    | (ws, .error _) => ⟨ws, h.stop, .stopped⟩

/-- The full `run` loop over a finite schedule of probe outcomes. -/
def Heartbeater.runLoop (h : Heartbeater) :
    List (ProbeOutcome × ℚ) → List Nat × Heartbeater × HBStatus
  | [] => ([], h, if h.stop_ev then .stopped else .running)
  | (p, now) :: rest =>
    if h.stop_ev then ([], h, .stopped)
    else
      let r := h.runIteration p now
      match r.status with
      | .raised e => (r.warnings, r.hb, .raised e)
      | .stopped => (r.warnings, r.hb, .stopped)
      | .running =>
        let (ws, h2, st) := Heartbeater.runLoop r.hb rest
        (r.warnings ++ ws, h2, st)

/-- Claim C2: evaluation at the failing input.  A freshly constructed monitor
whose first probe wait exceeds the bounded timeout once (and whose probe would
then succeed) does not log any stall warning and transitions to Stopped: the
timeout branch reads the attribute `_main_thread_id`, which `__init__` never
assigns, and the resulting `AttributeError` escapes the inner `except
KeyError` into the blanket handler, which calls `stop`.  The claim (and the
evident intent of the `block_msg` machinery) requires a logged stall warning
followed by continued waiting. -/
theorem heartbeater_stall_stops_monitor :
    (Heartbeater.init 1 0).runLoop [(.scheduled 1 (.ok ()), 10)] =
      ([], (Heartbeater.init 1 0).stop, .stopped) := by
  decide

/-- Foil for C2: had `_main_thread_id` been assigned (as in the upstream code
this file was ported from), the same schedule logs the stall warning with the
elapsed total of 10 and the monitor keeps running. -/
theorem heartbeater_stall_warns_with_thread_id :
    ({ Heartbeater.init 1 0 with main_thread_id := some 1 }).runLoop
        [(.scheduled 1 (.ok ()), 10)] =
      ([10], { Heartbeater.init 1 0 with main_thread_id := some 1, last_ping := 10 },
        .running) := by
  decide

structure WebSocket where
  socket : Nat
  heartbeater : Option Heartbeater
  deriving DecidableEq, Repr

def WebSocket.latency (ws : WebSocket) : PyFloat :=
  match ws.heartbeater with
  | some h => h.latency
  | none => .inf

/-- Claim C7: with no heartbeater attached, or on a freshly constructed
heartbeater, the latency reads as infinite; once a probe completion is
recorded at time t0 and the acknowledgment arrives at time t1, the stored
latency is exactly t1 - t0, both directly and through the run-loop path. -/
theorem latency_inf_then_roundtrip :
    (∀ s : Nat, (WebSocket.mk s none).latency = .inf) ∧
    (∀ interval now : ℚ, (Heartbeater.init interval now).latency = .inf) ∧
    (∀ (h : Heartbeater) (t0 t1 : ℚ),
      (Heartbeater.record_pong { h with last_ping := t0 } t1).latency = .val (t1 - t0)) ∧
    (∀ (h : Heartbeater) (t0 t1 : ℚ),
      (((h.runIteration (.scheduled 0 (.ok ())) t0).hb).record_pong t1).latency =
        .val (t1 - t0)) ∧
    (∀ (s : Nat) (h : Heartbeater), (WebSocket.mk s (some h)).latency = h.latency) :=
  ⟨fun _ => rfl, fun _ _ => rfl, fun _ _ _ => rfl, fun _ _ _ => rfl, fun _ _ => rfl⟩

/-! ### `WebSocket.connect` -/

inductive HandshakeResult where
  | ok (socket : Nat)
  | handshakeError (e : String)
  deriving DecidableEq, Repr

structure ConnectEnv where
  ws_connect : HandshakeResult
  ping : Except PyExc Unit
  deriving DecidableEq, Repr

inductive ConnectResult where
  | value (e : String)
  | connection (ws : WebSocket)
  | raised (e : PyExc)
  deriving DecidableEq, Repr

structure ConnectTrace where
  result : ConnectResult
  errorLogged : Bool
  pings : Nat
  deriving DecidableEq, Repr

/-- Embedding of `WebSocket.connect`: only `WSServerHandshakeError` from the
upgrade is caught, logged, and returned as a value; on success a fresh
`WebSocket` (no heartbeater yet) issues exactly one ping, awaited before the
object is returned. -/
def WebSocket.connect (env : ConnectEnv) : ConnectTrace :=
  match env.ws_connect with
  | .handshakeError e => ⟨.value e, true, 0⟩
  | .ok s =>
    match env.ping with
    | .ok _ => ⟨.connection ⟨s, none⟩, false, 1⟩
    | .error e => ⟨.raised e, false, 1⟩

/-- Claim C8: if the upgrade handshake fails, the failure is logged and
returned as a value (no ping is issued and nothing is raised); if the
handshake succeeds, exactly one ping is issued, and when that ping succeeds
the connection object is returned. -/
theorem connect_handshake_contract (env : ConnectEnv) :
    (∀ e, env.ws_connect = .handshakeError e →
      WebSocket.connect env = ⟨.value e, true, 0⟩) ∧
    (∀ s, env.ws_connect = .ok s →
      (WebSocket.connect env).pings = 1 ∧
      (env.ping = .ok () → WebSocket.connect env = ⟨.connection ⟨s, none⟩, false, 1⟩)) := by
  constructor
  · intro e he
    simp [WebSocket.connect, he]
  · intro s hs
    constructor
    · simp only [WebSocket.connect, hs]
      cases env.ping <;> rfl
    · intro hp
      simp [WebSocket.connect, hs, hp]

/-- Claim C8 witness: the contract applied to a failing handshake and to a
succeeding handshake with a healthy ping. -/
theorem connect_handshake_contract_witness :
    (WebSocket.connect ⟨.handshakeError "upgrade refused", .ok ()⟩ =
      ⟨.value "upgrade refused", true, 0⟩) ∧
    ((WebSocket.connect ⟨.ok 7, .ok ()⟩).pings = 1 ∧
      WebSocket.connect ⟨.ok 7, .ok ()⟩ = ⟨.connection ⟨7, none⟩, false, 1⟩) :=
  ⟨(connect_handshake_contract ⟨.handshakeError "upgrade refused", .ok ()⟩).1
      "upgrade refused" rfl,
    ((connect_handshake_contract ⟨.ok 7, .ok ()⟩).2 7 rfl).1,
    ((connect_handshake_contract ⟨.ok 7, .ok ()⟩).2 7 rfl).2 rfl⟩

/-! ## The mention-fill subsystem (`mixins.py`, `Mentions.fill`)

Entities are represented by their identifiers.  The entity cache records
which identifiers are present per kind; fetches are an oracle mapping each
request to its result, with `HTTPException` as the only failure the
individual paths catch. -/

structure HTTPError where
  status : Nat
  deriving DecidableEq, Repr

structure CacheState where
  users : List String
  members : List (String × String)
  roles : List (String × String)
  channels : List (String × String)
  deriving DecidableEq, Repr

def CacheState.get_user (c : CacheState) (uid : String) : Bool :=
  decide (uid ∈ c.users)

def CacheState.get_server_member (c : CacheState) (sid uid : String) : Bool :=
  decide ((sid, uid) ∈ c.members)

def CacheState.get_server_role (c : CacheState) (sid rid : String) : Bool :=
  decide ((sid, rid) ∈ c.roles)

def CacheState.get_server_channel (c : CacheState) (sid cid : String) : Bool :=
  decide ((sid, cid) ∈ c.channels)

def CacheState.add_to_user_cache (c : CacheState) (uid : String) : CacheState :=
  { c with users := c.users ++ [uid] }

def CacheState.add_to_member_cache (c : CacheState) (sid uid : String) : CacheState :=
  { c with members := c.members ++ [(sid, uid)] }

def CacheState.add_to_role_cache (c : CacheState) (sid rid : String) : CacheState :=
  { c with roles := c.roles ++ [(sid, rid)] }

def CacheState.add_to_server_channel_cache (c : CacheState) (sid cid : String) : CacheState :=
  { c with channels := c.channels ++ [(sid, cid)] }

/-- The mention data of one piece of content: the owning server (if any) and
the referenced identifiers per kind, as listed in the raw payload. -/
structure Mentions where
  server : Option String
  users : List String
  channels : List String
  roles : List String
  deriving DecidableEq, Repr

/-- Whether one user reference resolves from the cache, as in the `users`
property: the global user store, overridden by the member store when a server
is attached. -/
def Mentions.resolvedUser (m : Mentions) (c : CacheState) (uid : String) : Bool :=
  match m.server with
  | some sid => c.get_server_member sid uid || c.get_user uid
  | none => c.get_user uid

/-- The `users` property: the subset of referenced users that resolve. -/
def Mentions.usersProp (m : Mentions) (c : CacheState) : List String :=
  m.users.filter (m.resolvedUser c)

/-- The `roles` property: empty in a DM context. -/
def Mentions.rolesProp (m : Mentions) (c : CacheState) : List String :=
  match m.server with
  | some sid => m.roles.filter (fun rid => c.get_server_role sid rid)
  | none => []

/-- The fetch oracle: results of the network calls `fill` can make.  Fetched
entities are represented by their identifier. -/
structure FetchEnv where
  fetch_members : Except HTTPError (List String)
  fetch_member : String → Except HTTPError String
  get_user : String → Except HTTPError String
  fetch_roles : Except HTTPError (List String)
  fetch_role : String → Except HTTPError String
  fetch_channel : String → Except HTTPError String

inductive FetchCall where
  | members
  | member (uid : String)
  | user (uid : String)
  | roles
  | role (rid : String)
  | channel (cid : String)
  deriving DecidableEq, Repr

/-- A failure that aborts `fill`: an uncaught `HTTPException`, or the
`AttributeError` raised when the role loop reads `self._server.id` in a DM
context. -/
inductive FillError where
  | http (e : HTTPError)
  | attributeError
  deriving DecidableEq, Repr

structure FillState where
  calls : List FetchCall
  cache : CacheState
  deriving DecidableEq, Repr

/-- The individual user path: fetch each uncached (or force-refetched)
reference one by one, through `fetch_member` when a server is attached and
`get_user` otherwise. -/
def fillUsersIndiv (env : FetchEnv) (server : Option String) (ic ie : Bool) :
    List String → FillState → FillState × Option FillError
  | [], st => (st, none)
  | uid :: rest, st =>
    let cached : Bool :=
      match server with
      | some sid => st.cache.get_server_member sid uid || st.cache.get_user uid
      | none => st.cache.get_user uid
    if ic || !cached then
      match server with
      | some sid =>
        let st2 : FillState := { st with calls := st.calls ++ [.member uid] }
        match env.fetch_member uid with
        | .error e =>
          if ie then fillUsersIndiv env server ic ie rest st2 else (st2, some (.http e))
        | .ok u =>
          fillUsersIndiv env server ic ie rest
            { st2 with cache := st2.cache.add_to_member_cache sid u }
      | none =>
        let st2 : FillState := { st with calls := st.calls ++ [.user uid] }
        match env.get_user uid with
        | .error e =>
          if ie then fillUsersIndiv env server ic ie rest st2 else (st2, some (.http e))
        | .ok u =>
          fillUsersIndiv env server ic ie rest
            { st2 with cache := st2.cache.add_to_user_cache u }
    else fillUsersIndiv env server ic ie rest st

/-- The bulk user path: one `fetch_members` call, never guarded by a
try/except; on success the member cache is populated with the returned
members that are referenced. -/
def fillUsersBulk (env : FetchEnv) (sid : String) (userRefs : List String)
    (st : FillState) : FillState × Option FillError :=
  let st2 : FillState := { st with calls := st.calls ++ [.members] }
  match env.fetch_members with
  | .error e => (st2, some (.http e))
  | .ok members =>
    ({ st2 with
        cache := members.foldl
          (fun c u => if u ∈ userRefs then c.add_to_member_cache sid u else c)
          st2.cache }, none)

def fillUsersPhase (env : FetchEnv) (m : Mentions) (ic ie : Bool)
    (st : FillState) : FillState × Option FillError :=
  let uncached := m.users.length - (m.usersProp st.cache).length
  match m.server with
  | some sid =>
    if 5 ≤ uncached ∨ (5 ≤ m.users.length ∧ ic = true) then
      fillUsersBulk env sid m.users st
    else fillUsersIndiv env (some sid) ic ie m.users st
  | none => fillUsersIndiv env none ic ie m.users st

/-- The individual role path.  In a DM context the loop body crashes with
`AttributeError` before its guard, because `cached_role` is computed from
`self._server.id`. -/
def fillRolesIndiv (env : FetchEnv) (server : Option String) (ic ie : Bool) :
    List String → FillState → FillState × Option FillError
  | [], st => (st, none)
  | rid :: rest, st =>
    match server with
    | none => (st, some .attributeError)
    | some sid =>
      let cached := st.cache.get_server_role sid rid
      if ic || !cached then
        let st2 : FillState := { st with calls := st.calls ++ [.role rid] }
        match env.fetch_role rid with
        | .error e =>
          if ie then fillRolesIndiv env server ic ie rest st2 else (st2, some (.http e))
        | .ok r =>
          fillRolesIndiv env server ic ie rest
            { st2 with cache := st2.cache.add_to_role_cache sid r }
      else fillRolesIndiv env server ic ie rest st

def fillRolesBulk (env : FetchEnv) (sid : String) (roleRefs : List String)
    (st : FillState) : FillState × Option FillError :=
  let st2 : FillState := { st with calls := st.calls ++ [.roles] }
  match env.fetch_roles with
  | .error e => (st2, some (.http e))
  | .ok roles =>
    ({ st2 with
        cache := roles.foldl
          (fun c r => if r ∈ roleRefs then c.add_to_role_cache sid r else c)
          st2.cache }, none)

def fillRolesPhase (env : FetchEnv) (m : Mentions) (ic ie : Bool)
    (st : FillState) : FillState × Option FillError :=
  let uncached := m.roles.length - (m.rolesProp st.cache).length
  match m.server with
  | some sid =>
    if 5 ≤ uncached ∨ (5 ≤ m.roles.length ∧ ic = true) then
      fillRolesBulk env sid m.roles st
    else fillRolesIndiv env (some sid) ic ie m.roles st
  | none => fillRolesIndiv env none ic ie m.roles st

/-- The channel loop: there is no bulk path for channels; each reference is
checked against the cache and fetched individually.  In a DM context the loop
breaks immediately. -/
def fillChannels (env : FetchEnv) (server : Option String) (ic ie : Bool) :
    List String → FillState → FillState × Option FillError
  | [], st => (st, none)
  | cid :: rest, st =>
    match server with
    | none => (st, none)
    | some sid =>
      let cached := st.cache.get_server_channel sid cid
      if ic || !cached then
        let st2 : FillState := { st with calls := st.calls ++ [.channel cid] }
        match env.fetch_channel cid with
        | .error e =>
          if ie then fillChannels env server ic ie rest st2 else (st2, some (.http e))
        | .ok ch =>
          fillChannels env server ic ie rest
            { st2 with cache := st2.cache.add_to_server_channel_cache sid ch }
      else fillChannels env server ic ie rest st

/-- Embedding of `Mentions.fill`: the user phase, then the role phase, then
the channel loop, aborting at the first uncaught failure. -/
def Mentions.fill (env : FetchEnv) (m : Mentions) (c : CacheState) (ic ie : Bool) :
    FillState × Option FillError :=
  match fillUsersPhase env m ic ie ⟨[], c⟩ with
  | (st, some e) => (st, some e)
  | (st, none) =>
    match fillRolesPhase env m ic ie st with
    | (st2, some e) => (st2, some e)
    | (st2, none) => fillChannels env m.server ic ie m.channels st2

theorem fillUsersIndiv_uncached_ok (env : FetchEnv) (sid : String) (ic ie : Bool) :
    ∀ (ids : List String) (st : FillState), ids.Nodup →
      (∀ id ∈ ids, (sid, id) ∉ st.cache.members ∧ id ∉ st.cache.users) →
      (∀ id ∈ ids, env.fetch_member id = .ok id) →
      (fillUsersIndiv env (some sid) ic ie ids st).1.calls =
        st.calls ++ ids.map FetchCall.member ∧
      (fillUsersIndiv env (some sid) ic ie ids st).2 = none := by
  intro ids
  induction ids with
  | nil => intro st _ _ _; simp [fillUsersIndiv]
  | cons a rest ih =>
    intro st hnd hun hok
    obtain ⟨ham, hau⟩ := hun a (by simp)
    have hcached : (st.cache.get_server_member sid a || st.cache.get_user a) = false := by
      simp [CacheState.get_server_member, CacheState.get_user, ham, hau]
    have hfa : env.fetch_member a = .ok a := hok a (by simp)
    have step : fillUsersIndiv env (some sid) ic ie (a :: rest) st =
        fillUsersIndiv env (some sid) ic ie rest
          ⟨st.calls ++ [.member a], st.cache.add_to_member_cache sid a⟩ := by
      simp [fillUsersIndiv, hcached, hfa]
    rw [step]
    have hrec := ih ⟨st.calls ++ [.member a], st.cache.add_to_member_cache sid a⟩
      (List.nodup_cons.mp hnd).2
      (by
        intro id hid
        obtain ⟨hm, hu⟩ := hun id (List.mem_cons_of_mem a hid)
        refine ⟨?_, hu⟩
        simp only [CacheState.add_to_member_cache, List.mem_append, List.mem_singleton]
        rintro (h | h)
        · exact hm h
        · have hia : id = a := (Prod.mk.injEq _ _ _ _ |>.mp h).2
          exact (List.nodup_cons.mp hnd).1 (hia ▸ hid))
      (fun id hid => hok id (List.mem_cons_of_mem a hid))
    refine ⟨?_, hrec.2⟩
    rw [hrec.1]
    simp

theorem fillRolesIndiv_uncached_ok (env : FetchEnv) (sid : String) (ic ie : Bool) :
    ∀ (ids : List String) (st : FillState), ids.Nodup →
      (∀ id ∈ ids, (sid, id) ∉ st.cache.roles) →
      (∀ id ∈ ids, env.fetch_role id = .ok id) →
      (fillRolesIndiv env (some sid) ic ie ids st).1.calls =
        st.calls ++ ids.map FetchCall.role ∧
      (fillRolesIndiv env (some sid) ic ie ids st).2 = none := by
  intro ids
  induction ids with
  | nil => intro st _ _ _; simp [fillRolesIndiv]
  | cons a rest ih =>
    intro st hnd hun hok
    have hcached : st.cache.get_server_role sid a = false := by
      simp [CacheState.get_server_role, hun a (by simp)]
    have hfa : env.fetch_role a = .ok a := hok a (by simp)
    have step : fillRolesIndiv env (some sid) ic ie (a :: rest) st =
        fillRolesIndiv env (some sid) ic ie rest
          ⟨st.calls ++ [.role a], st.cache.add_to_role_cache sid a⟩ := by
      simp [fillRolesIndiv, hcached, hfa]
    rw [step]
    have hrec := ih ⟨st.calls ++ [.role a], st.cache.add_to_role_cache sid a⟩
      (List.nodup_cons.mp hnd).2
      (by
        intro id hid
        have hm := hun id (List.mem_cons_of_mem a hid)
        simp only [CacheState.add_to_role_cache, List.mem_append, List.mem_singleton]
        rintro (h | h)
        · exact hm h
        · have hia : id = a := (Prod.mk.injEq _ _ _ _ |>.mp h).2
          exact (List.nodup_cons.mp hnd).1 (hia ▸ hid))
      (fun id hid => hok id (List.mem_cons_of_mem a hid))
    refine ⟨?_, hrec.2⟩
    rw [hrec.1]
    simp

theorem fillChannels_uncached_ok (env : FetchEnv) (sid : String) (ic ie : Bool) :
    ∀ (ids : List String) (st : FillState), ids.Nodup →
      (∀ id ∈ ids, (sid, id) ∉ st.cache.channels) →
      (∀ id ∈ ids, env.fetch_channel id = .ok id) →
      (fillChannels env (some sid) ic ie ids st).1.calls =
        st.calls ++ ids.map FetchCall.channel ∧
      (fillChannels env (some sid) ic ie ids st).2 = none := by
  intro ids
  induction ids with
  | nil => intro st _ _ _; simp [fillChannels]
  | cons a rest ih =>
    intro st hnd hun hok
    have hcached : st.cache.get_server_channel sid a = false := by
      simp [CacheState.get_server_channel, hun a (by simp)]
    have hfa : env.fetch_channel a = .ok a := hok a (by simp)
    have step : fillChannels env (some sid) ic ie (a :: rest) st =
        fillChannels env (some sid) ic ie rest
          ⟨st.calls ++ [.channel a], st.cache.add_to_server_channel_cache sid a⟩ := by
      simp [fillChannels, hcached, hfa]
    rw [step]
    have hrec := ih ⟨st.calls ++ [.channel a], st.cache.add_to_server_channel_cache sid a⟩
      (List.nodup_cons.mp hnd).2
      (by
        intro id hid
        have hm := hun id (List.mem_cons_of_mem a hid)
        simp only [CacheState.add_to_server_channel_cache, List.mem_append, List.mem_singleton]
        rintro (h | h)
        · exact hm h
        · have hia : id = a := (Prod.mk.injEq _ _ _ _ |>.mp h).2
          exact (List.nodup_cons.mp hnd).1 (hia ▸ hid))
      (fun id hid => hok id (List.mem_cons_of_mem a hid))
    refine ⟨?_, hrec.2⟩
    rw [hrec.1]
    simp

theorem fillUsersPhase_no_users (env : FetchEnv) (m : Mentions) (ic ie : Bool)
    (st : FillState) (hm : m.users = []) :
    fillUsersPhase env m ic ie st = (st, none) := by
  rcases m with ⟨server, users, channels, roles⟩
  simp only [] at hm
  subst hm
  rcases server with _ | sid <;>
    simp [fillUsersPhase, Mentions.usersProp, fillUsersIndiv]

theorem fillRolesPhase_no_roles (env : FetchEnv) (m : Mentions) (ic ie : Bool)
    (st : FillState) (hm : m.roles = []) :
    fillRolesPhase env m ic ie st = (st, none) := by
  rcases m with ⟨server, users, channels, roles⟩
  simp only [] at hm
  subst hm
  rcases server with _ | sid <;>
    simp [fillRolesPhase, Mentions.rolesProp, fillRolesIndiv]

theorem usersProp_nil_of_uncached (m : Mentions) (c : CacheState) (sid : String)
    (hs : m.server = some sid)
    (hun : ∀ id ∈ m.users, (sid, id) ∉ c.members ∧ id ∉ c.users) :
    m.usersProp c = [] := by
  rw [Mentions.usersProp, List.filter_eq_nil_iff]
  intro id hid
  obtain ⟨hm, hu⟩ := hun id hid
  simp [Mentions.resolvedUser, hs, CacheState.get_server_member, CacheState.get_user, hm, hu]

theorem rolesProp_nil_of_uncached (m : Mentions) (c : CacheState) (sid : String)
    (hs : m.server = some sid)
    (hun : ∀ id ∈ m.roles, (sid, id) ∉ c.roles) :
    m.rolesProp c = [] := by
  rw [Mentions.rolesProp, hs]
  rw [List.filter_eq_nil_iff]
  intro id hid
  simp [CacheState.get_server_role, hun id hid]

/-- Claim C6: a fill attached to a server whose mention data references six
distinct uncached user ids issues exactly one bulk member-list fetch and no
per-user fetches (whatever the flags and whatever the bulk fetch returns);
a fill referencing three distinct uncached user ids issues exactly the three
individual member fetches and completes. -/
theorem fill_six_bulk_three_individual
    (env1 : FetchEnv) (c1 : CacheState) (sid1 : String) (ids6 : List String)
    (ic1 ie1 : Bool)
    (hlen6 : ids6.length = 6) (hnd6 : ids6.Nodup)
    (hun6 : ∀ id ∈ ids6, (sid1, id) ∉ c1.members ∧ id ∉ c1.users)
    (env2 : FetchEnv) (c2 : CacheState) (sid2 : String) (a b c : String) (ie2 : Bool)
    (hnd3 : [a, b, c].Nodup)
    (hun3 : ∀ id ∈ [a, b, c], (sid2, id) ∉ c2.members ∧ id ∉ c2.users)
    (hok3 : ∀ id ∈ [a, b, c], env2.fetch_member id = .ok id) :
    (Mentions.fill env1 ⟨some sid1, ids6, [], []⟩ c1 ic1 ie1).1.calls = [.members] ∧
    (Mentions.fill env2 ⟨some sid2, [a, b, c], [], []⟩ c2 false ie2).1.calls =
      [.member a, .member b, .member c] ∧
    (Mentions.fill env2 ⟨some sid2, [a, b, c], [], []⟩ c2 false ie2).2 = none := by
  have hup6 : Mentions.usersProp ⟨some sid1, ids6, [], []⟩ c1 = [] :=
    usersProp_nil_of_uncached _ c1 sid1 rfl hun6
  have hphase6 : fillUsersPhase env1 ⟨some sid1, ids6, [], []⟩ ic1 ie1 ⟨[], c1⟩ =
      fillUsersBulk env1 sid1 ids6 ⟨[], c1⟩ := by
    simp only [fillUsersPhase, hup6]
    rw [if_pos]
    left
    simp [hlen6]
  refine ⟨?_, ?_⟩
  · unfold Mentions.fill
    rw [hphase6]
    unfold fillUsersBulk
    cases hm : env1.fetch_members with
    | error e => simp
    | ok ms =>
      simp only []
      rw [fillRolesPhase_no_roles env1 _ ic1 ie1 _ rfl]
      simp [fillChannels]
  · have hup3 : Mentions.usersProp ⟨some sid2, [a, b, c], [], []⟩ c2 = [] :=
      usersProp_nil_of_uncached _ c2 sid2 rfl hun3
    have hphase3 : fillUsersPhase env2 ⟨some sid2, [a, b, c], [], []⟩ false ie2 ⟨[], c2⟩ =
        fillUsersIndiv env2 (some sid2) false ie2 [a, b, c] ⟨[], c2⟩ := by
      simp only [fillUsersPhase, hup3]
      rw [if_neg]
      simp
    have hind := fillUsersIndiv_uncached_ok env2 sid2 false ie2 [a, b, c] ⟨[], c2⟩
      hnd3 hun3 hok3
    rcases hv : fillUsersIndiv env2 (some sid2) false ie2 [a, b, c] ⟨[], c2⟩ with ⟨st1, e1⟩
    rw [hv] at hind
    simp only [] at hind
    cases e1 with
    | some e => exact absurd hind.2 (by simp)
    | none =>
      have hfill : Mentions.fill env2 ⟨some sid2, [a, b, c], [], []⟩ c2 false ie2 =
          (st1, none) := by
        unfold Mentions.fill
        rw [hphase3, hv]
        simp only []
        rw [fillRolesPhase_no_roles env2 _ false ie2 _ rfl]
        simp [fillChannels]
      rw [hfill]
      exact ⟨by simpa using hind.1, rfl⟩

/-- A fetch oracle in which every call succeeds and returns the requested
identifier (bulk calls return empty collections). -/
def envOkId : FetchEnv where
  fetch_members := .ok []
  fetch_member := fun u => .ok u
  get_user := fun u => .ok u
  fetch_roles := .ok []
  fetch_role := fun r => .ok r
  fetch_channel := fun c => .ok c

def emptyCache : CacheState := ⟨[], [], [], []⟩

/-- Claim C6 witness: the theorem applied to concrete six-user and three-user
fills against an empty cache with an all-succeeding oracle. -/
theorem fill_six_bulk_three_individual_witness :
    (Mentions.fill envOkId ⟨some "s", ["u1", "u2", "u3", "u4", "u5", "u6"], [], []⟩
      emptyCache false false).1.calls = [.members] ∧
    (Mentions.fill envOkId ⟨some "s", ["a", "b", "c"], [], []⟩
      emptyCache false false).1.calls = [.member "a", .member "b", .member "c"] ∧
    (Mentions.fill envOkId ⟨some "s", ["a", "b", "c"], [], []⟩
      emptyCache false false).2 = none :=
  fill_six_bulk_three_individual envOkId emptyCache "s"
    ["u1", "u2", "u3", "u4", "u5", "u6"] false false rfl (by decide) (by decide)
    envOkId emptyCache "s" "a" "b" "c" false (by decide) (by decide) (fun _ _ => rfl)

/-- Claim C3 counterexample: a fill referencing six distinct uncached channel
ids issues six individual channel fetches — there is no bulk path for
channels, contradicting the claim that channel references follow the same
dual-path policy with a single bulk fetch once five or more are uncached. -/
theorem fill_channels_no_bulk_counterexample :
    (Mentions.fill envOkId
        ⟨some "s", [], ["c1", "c2", "c3", "c4", "c5", "c6"], []⟩
        emptyCache false false).1.calls =
      [.channel "c1", .channel "c2", .channel "c3",
        .channel "c4", .channel "c5", .channel "c6"] ∧
    (Mentions.fill envOkId
        ⟨some "s", [], ["c1", "c2", "c3", "c4", "c5", "c6"], []⟩
        emptyCache false false).2 = none := by
  decide

/-- Claim C3 (amended): role references follow the same dual-path policy as
user references (five or more uncached role references trigger exactly one
bulk role fetch; fewer are fetched individually), but channel references
never use a bulk path: every missing channel reference is fetched
individually regardless of how many there are. -/
theorem fill_roles_dual_path_channels_individual
    (env1 : FetchEnv) (c1 : CacheState) (sid1 : String) (rids : List String)
    (ic1 ie1 : Bool)
    (hlen : 5 ≤ rids.length)
    (hun1 : ∀ id ∈ rids, (sid1, id) ∉ c1.roles) :
    (Mentions.fill env1 ⟨some sid1, [], [], rids⟩ c1 ic1 ie1).1.calls = [.roles] ∧
    (∀ (env2 : FetchEnv) (c2 : CacheState) (sid2 : String) (x y z : String) (ie2 : Bool),
      [x, y, z].Nodup → (∀ id ∈ [x, y, z], (sid2, id) ∉ c2.roles) →
      (∀ id ∈ [x, y, z], env2.fetch_role id = .ok id) →
      (Mentions.fill env2 ⟨some sid2, [], [], [x, y, z]⟩ c2 false ie2).1.calls =
        [.role x, .role y, .role z]) ∧
    (∀ (env3 : FetchEnv) (c3 : CacheState) (sid3 : String) (cids : List String) (ie3 : Bool),
      cids.Nodup → (∀ id ∈ cids, (sid3, id) ∉ c3.channels) →
      (∀ id ∈ cids, env3.fetch_channel id = .ok id) →
      (Mentions.fill env3 ⟨some sid3, [], cids, []⟩ c3 false ie3).1.calls =
        cids.map FetchCall.channel) := by
  refine ⟨?_, ?_, ?_⟩
  · have hrp : Mentions.rolesProp ⟨some sid1, [], [], rids⟩ c1 = [] :=
      rolesProp_nil_of_uncached _ c1 sid1 rfl hun1
    unfold Mentions.fill
    rw [fillUsersPhase_no_users env1 _ ic1 ie1 _ rfl]
    simp only []
    have hphase : fillRolesPhase env1 ⟨some sid1, [], [], rids⟩ ic1 ie1 ⟨[], c1⟩ =
        fillRolesBulk env1 sid1 rids ⟨[], c1⟩ := by
      simp only [fillRolesPhase, hrp]
      rw [if_pos]
      left
      simpa using hlen
    rw [hphase]
    unfold fillRolesBulk
    cases hm : env1.fetch_roles with
    | error e => simp
    | ok rs => simp [fillChannels]
  · intro env2 c2 sid2 x y z ie2 hnd hun hok
    have hrp : Mentions.rolesProp ⟨some sid2, [], [], [x, y, z]⟩ c2 = [] :=
      rolesProp_nil_of_uncached _ c2 sid2 rfl hun
    unfold Mentions.fill
    rw [fillUsersPhase_no_users env2 _ false ie2 _ rfl]
    simp only []
    have hphase : fillRolesPhase env2 ⟨some sid2, [], [], [x, y, z]⟩ false ie2 ⟨[], c2⟩ =
        fillRolesIndiv env2 (some sid2) false ie2 [x, y, z] ⟨[], c2⟩ := by
      simp only [fillRolesPhase, hrp]
      rw [if_neg]
      simp
    rw [hphase]
    have hind := fillRolesIndiv_uncached_ok env2 sid2 false ie2 [x, y, z] ⟨[], c2⟩
      hnd hun hok
    rcases hv : fillRolesIndiv env2 (some sid2) false ie2 [x, y, z] ⟨[], c2⟩ with ⟨st1, e1⟩
    rw [hv] at hind
    simp only [] at hind
    cases e1 with
    | some e => exact absurd hind.2 (by simp)
    | none =>
      simp only []
      rw [show fillChannels env2 (some sid2) false ie2 [] st1 = (st1, none) from rfl]
      simpa using hind.1
  · intro env3 c3 sid3 cids ie3 hnd hun hok
    unfold Mentions.fill
    rw [fillUsersPhase_no_users env3 _ false ie3 _ rfl]
    simp only []
    rw [fillRolesPhase_no_roles env3 _ false ie3 _ rfl]
    simp only []
    have hind := fillChannels_uncached_ok env3 sid3 false ie3 cids ⟨[], c3⟩ hnd hun hok
    simpa using hind.1

/-- Claim C3 witness: the amended theorem applied to a concrete six-role
bulk fill, a three-role individual fill and a six-channel individual fill. -/
theorem fill_roles_dual_path_channels_individual_witness :
    (Mentions.fill envOkId ⟨some "s", [], [], ["r1", "r2", "r3", "r4", "r5", "r6"]⟩
      emptyCache false false).1.calls = [.roles] ∧
    (Mentions.fill envOkId ⟨some "s", [], [], ["x", "y", "z"]⟩
      emptyCache false false).1.calls = [.role "x", .role "y", .role "z"] ∧
    (Mentions.fill envOkId ⟨some "s", [], ["d1", "d2", "d3", "d4", "d5", "d6"], []⟩
      emptyCache false false).1.calls =
      ["d1", "d2", "d3", "d4", "d5", "d6"].map FetchCall.channel :=
  have h := fill_roles_dual_path_channels_individual envOkId emptyCache "s"
    ["r1", "r2", "r3", "r4", "r5", "r6"] false false (by decide) (by decide)
  ⟨h.1,
    h.2.1 envOkId emptyCache "s" "x" "y" "z" false (by decide) (by decide) (fun _ _ => rfl),
    h.2.2 envOkId emptyCache "s" ["d1", "d2", "d3", "d4", "d5", "d6"] false
      (by decide) (by decide) (fun _ _ => rfl)⟩

theorem fillUsersIndiv_first_fail (env : FetchEnv) (sid : String) (ic : Bool) :
    ∀ (xs : List String) (x : String) (ys : List String) (st : FillState) (e : HTTPError),
      (xs ++ x :: ys).Nodup →
      (∀ id ∈ xs ++ x :: ys, (sid, id) ∉ st.cache.members ∧ id ∉ st.cache.users) →
      (∀ id ∈ xs, env.fetch_member id = .ok id) →
      env.fetch_member x = .error e →
      (fillUsersIndiv env (some sid) ic false (xs ++ x :: ys) st).1.calls =
        st.calls ++ xs.map FetchCall.member ++ [.member x] ∧
      (fillUsersIndiv env (some sid) ic false (xs ++ x :: ys) st).2 =
        some (.http e) := by
  intro xs
  induction xs with
  | nil =>
    intro x ys st e _ hun _ hx
    obtain ⟨hxm, hxu⟩ := hun x (by simp)
    have hcached : (st.cache.get_server_member sid x || st.cache.get_user x) = false := by
      simp [CacheState.get_server_member, CacheState.get_user, hxm, hxu]
    simp [fillUsersIndiv, hcached, hx]
  | cons a rest ih =>
    intro x ys st e hnd hun hok hx
    obtain ⟨ham, hau⟩ := hun a (by simp)
    have hcached : (st.cache.get_server_member sid a || st.cache.get_user a) = false := by
      simp [CacheState.get_server_member, CacheState.get_user, ham, hau]
    have hfa : env.fetch_member a = .ok a := hok a (by simp)
    have step : fillUsersIndiv env (some sid) ic false ((a :: rest) ++ x :: ys) st =
        fillUsersIndiv env (some sid) ic false (rest ++ x :: ys)
          ⟨st.calls ++ [.member a], st.cache.add_to_member_cache sid a⟩ := by
      simp [fillUsersIndiv, hcached, hfa]
    rw [step]
    have hnd' : (a :: (rest ++ x :: ys)).Nodup := hnd
    have hnd2 := (List.nodup_cons.mp hnd').2
    have hna := (List.nodup_cons.mp hnd').1
    have hrec := ih x ys ⟨st.calls ++ [.member a], st.cache.add_to_member_cache sid a⟩ e
      hnd2
      (by
        intro id hid
        obtain ⟨hm, hu⟩ := hun id (by simpa using Or.inr hid)
        refine ⟨?_, hu⟩
        simp only [CacheState.add_to_member_cache, List.mem_append, List.mem_singleton]
        rintro (h | h)
        · exact hm h
        · have hia : id = a := (Prod.mk.injEq _ _ _ _ |>.mp h).2
          exact hna (hia ▸ hid))
      (fun id hid => hok id (List.mem_cons_of_mem a hid))
      hx
    refine ⟨?_, hrec.2⟩
    rw [hrec.1]
    simp

theorem fillUsersIndiv_ie_none (env : FetchEnv) (server : Option String) (ic : Bool) :
    ∀ (ids : List String) (st : FillState),
      (fillUsersIndiv env server ic true ids st).2 = none := by
  intro ids
  induction ids with
  | nil => intro st; simp [fillUsersIndiv]
  | cons a rest ih =>
    intro st
    rcases server with _ | sid
    · simp only [fillUsersIndiv]
      split
      · cases h : env.get_user a with
        | error e => simp only [h]; exact ih _
        | ok u => simp only [h]; exact ih _
      · exact ih _
    · simp only [fillUsersIndiv]
      split
      · cases h : env.fetch_member a with
        | error e => simp only [h]; exact ih _
        | ok u => simp only [h]; exact ih _
      · exact ih _

theorem fillRolesIndiv_some_ie_none (env : FetchEnv) (sid : String) (ic : Bool) :
    ∀ (ids : List String) (st : FillState),
      (fillRolesIndiv env (some sid) ic true ids st).2 = none := by
  intro ids
  induction ids with
  | nil => intro st; simp [fillRolesIndiv]
  | cons a rest ih =>
    intro st
    simp only [fillRolesIndiv]
    split
    · cases h : env.fetch_role a with
      | error e => simp only [h]; exact ih _
      | ok u => simp only [h]; exact ih _
    · exact ih _

theorem fillChannels_ie_none (env : FetchEnv) (server : Option String) (ic : Bool) :
    ∀ (ids : List String) (st : FillState),
      (fillChannels env server ic true ids st).2 = none := by
  intro ids
  induction ids with
  | nil => intro st; simp [fillChannels]
  | cons a rest ih =>
    intro st
    rcases server with _ | sid
    · simp [fillChannels]
    · simp only [fillChannels]
      split
      · cases h : env.fetch_channel a with
        | error e => simp only [h]; exact ih _
        | ok u => simp only [h]; exact ih _
      · exact ih _

theorem fillUsersPhase_ie_none (env : FetchEnv) (m : Mentions) (ic : Bool)
    (st : FillState) (hms : ∃ ms, env.fetch_members = .ok ms) :
    (fillUsersPhase env m ic true st).2 = none := by
  obtain ⟨ms, hms⟩ := hms
  rcases h : m.server with _ | sid
  · simp only [fillUsersPhase, h]
    exact fillUsersIndiv_ie_none env none ic m.users st
  · simp only [fillUsersPhase, h]
    split
    · simp [fillUsersBulk, hms]
    · exact fillUsersIndiv_ie_none env (some sid) ic m.users st

theorem fillRolesPhase_ie_none (env : FetchEnv) (m : Mentions) (ic : Bool)
    (st : FillState) (hrs : ∃ rs, env.fetch_roles = .ok rs)
    (hdm : m.server = none → m.roles = []) :
    (fillRolesPhase env m ic true st).2 = none := by
  obtain ⟨rs, hrs⟩ := hrs
  rcases h : m.server with _ | sid
  · simp only [fillRolesPhase, h, hdm h]
    simp [fillRolesIndiv]
  · simp only [fillRolesPhase, h]
    split
    · simp [fillRolesBulk, hrs]
    · exact fillRolesIndiv_some_ie_none env sid ic m.roles st

/-- The oracle whose bulk member fetch fails with a 500 while every other
call succeeds. -/
def envBulkFail : FetchEnv :=
  { envOkId with fetch_members := .error ⟨500⟩ }

/-- Claim C4 counterexample: with `ignore_errors` set, a fill whose five
uncached user references select the bulk path still propagates the failure
of the bulk member fetch — the bulk call is not guarded by the try/except
that swallows per-reference failures. -/
theorem fill_bulk_failure_not_swallowed_counterexample :
    (Mentions.fill envBulkFail ⟨some "s", ["u1", "u2", "u3", "u4", "u5"], [], []⟩
      emptyCache false true).2 = some (.http ⟨500⟩) := by
  decide

/-- Claim C4 (amended): on the individual paths error propagation is governed
by `ignore_errors` — if unset, the first fetch failure aborts the whole fill
and propagates; if set, individual fetch failures are swallowed per-reference
and the fill runs to completion — but a failure of a bulk fetch always
propagates, regardless of `ignore_errors`. -/
theorem fill_error_propagation
    (env1 : FetchEnv) (c1 : CacheState) (sid1 : String) (uids : List String)
    (ic1 ie1 : Bool) (e1 : HTTPError)
    (hlen : 5 ≤ uids.length)
    (hun1 : ∀ id ∈ uids, (sid1, id) ∉ c1.members ∧ id ∉ c1.users)
    (hbulk : env1.fetch_members = .error e1) :
    (Mentions.fill env1 ⟨some sid1, uids, [], []⟩ c1 ic1 ie1).2 = some (.http e1) ∧
    (Mentions.fill env1 ⟨some sid1, uids, [], []⟩ c1 ic1 ie1).1.calls = [.members] ∧
    (∀ (env2 : FetchEnv) (c2 : CacheState) (sid2 : String) (xs : List String)
        (x : String) (ys : List String) (e2 : HTTPError),
      (xs ++ x :: ys).Nodup →
      (xs ++ x :: ys).length ≤ 4 →
      (∀ id ∈ xs ++ x :: ys, (sid2, id) ∉ c2.members ∧ id ∉ c2.users) →
      (∀ id ∈ xs, env2.fetch_member id = .ok id) →
      env2.fetch_member x = .error e2 →
      (Mentions.fill env2 ⟨some sid2, xs ++ x :: ys, [], []⟩ c2 false false).2 =
        some (.http e2) ∧
      (Mentions.fill env2 ⟨some sid2, xs ++ x :: ys, [], []⟩ c2 false false).1.calls =
        xs.map FetchCall.member ++ [.member x]) ∧
    (∀ (env3 : FetchEnv) (m : Mentions) (c3 : CacheState) (ic3 : Bool),
      (∃ ms, env3.fetch_members = .ok ms) →
      (∃ rs, env3.fetch_roles = .ok rs) →
      (m.server = none → m.roles = []) →
      (Mentions.fill env3 m c3 ic3 true).2 = none) := by
  have hup : Mentions.usersProp ⟨some sid1, uids, [], []⟩ c1 = [] :=
    usersProp_nil_of_uncached _ c1 sid1 rfl hun1
  have hphase : fillUsersPhase env1 ⟨some sid1, uids, [], []⟩ ic1 ie1 ⟨[], c1⟩ =
      fillUsersBulk env1 sid1 uids ⟨[], c1⟩ := by
    simp only [fillUsersPhase, hup]
    rw [if_pos]
    left
    simpa using hlen
  have hfillb : Mentions.fill env1 ⟨some sid1, uids, [], []⟩ c1 ic1 ie1 =
      (⟨[.members], c1⟩, some (.http e1)) := by
    unfold Mentions.fill
    rw [hphase]
    unfold fillUsersBulk
    rw [hbulk]
    simp
  refine ⟨by rw [hfillb], by rw [hfillb], ?_, ?_⟩
  · intro env2 c2 sid2 xs x ys e2 hnd hle hun hok hx
    have hup2 : Mentions.usersProp ⟨some sid2, xs ++ x :: ys, [], []⟩ c2 = [] :=
      usersProp_nil_of_uncached _ c2 sid2 rfl hun
    have hphase2 : fillUsersPhase env2 ⟨some sid2, xs ++ x :: ys, [], []⟩ false false
        ⟨[], c2⟩ =
        fillUsersIndiv env2 (some sid2) false false (xs ++ x :: ys) ⟨[], c2⟩ := by
      simp only [fillUsersPhase, hup2]
      rw [if_neg]
      simp only [List.length_nil, Nat.sub_zero, Bool.false_eq_true, and_false, or_false,
        not_le]
      omega
    have hind := fillUsersIndiv_first_fail env2 sid2 false xs x ys ⟨[], c2⟩ e2
      hnd hun hok hx
    rcases hv : fillUsersIndiv env2 (some sid2) false false (xs ++ x :: ys) ⟨[], c2⟩
      with ⟨st1, ee⟩
    rw [hv] at hind
    simp only [] at hind
    have hfill2 : Mentions.fill env2 ⟨some sid2, xs ++ x :: ys, [], []⟩ c2 false false =
        (st1, ee) := by
      unfold Mentions.fill
      rw [hphase2, hv]
      rw [hind.2]
    rw [hfill2, hind.2]
    exact ⟨rfl, by simpa using hind.1⟩
  · intro env3 m c3 ic3 hms hrs hdm
    unfold Mentions.fill
    rcases hu : fillUsersPhase env3 m ic3 true ⟨[], c3⟩ with ⟨st1, eu⟩
    have : eu = none := by
      have := fillUsersPhase_ie_none env3 m ic3 ⟨[], c3⟩ hms
      rw [hu] at this
      exact this
    subst this
    simp only []
    rcases hr : fillRolesPhase env3 m ic3 true st1 with ⟨st2, er⟩
    have : er = none := by
      have := fillRolesPhase_ie_none env3 m ic3 st1 hrs hdm
      rw [hr] at this
      exact this
    subst this
    simp only []
    exact fillChannels_ie_none env3 m.server ic3 m.channels st2

/-- Claim C4 witness: the amended theorem applied to concrete fills — a
five-user bulk fill whose member-list fetch fails with 500 under
ignore errors, a two-user individual fill whose second fetch fails with 404
and ignore errors unset, and a complete fill with ignore errors set. -/
theorem fill_error_propagation_witness :
    (Mentions.fill envBulkFail ⟨some "s", ["u1", "u2", "u3", "u4", "u5"], [], []⟩
      emptyCache false true).2 = some (.http ⟨500⟩) ∧
    (Mentions.fill { envOkId with fetch_member := fun u =>
        if u = "b" then Except.error ⟨404⟩ else Except.ok u }
      ⟨some "s", ["a", "b"], [], []⟩ emptyCache false false).2 = some (.http ⟨404⟩) ∧
    (Mentions.fill envOkId ⟨some "s", ["a"], ["c"], ["r"]⟩ emptyCache false true).2 =
      none :=
  have h := fill_error_propagation envBulkFail emptyCache "s"
    ["u1", "u2", "u3", "u4", "u5"] false true ⟨500⟩ (by decide) (by decide) rfl
  ⟨h.1,
    (h.2.2.1 { envOkId with fetch_member := fun u =>
        if u = "b" then Except.error ⟨404⟩ else Except.ok u }
      emptyCache "s" ["a"] "b" [] ⟨404⟩ (by decide) (by decide) (by decide)
      (fun id hid => by
        have : id = "a" := by simpa using hid
        subst this
        rfl)
      rfl).1,
    h.2.2.2 envOkId ⟨some "s", ["a"], ["c"], ["r"]⟩ emptyCache false
      ⟨[], rfl⟩ ⟨[], rfl⟩ (fun hcon => by simp at hcon)⟩

/-! ## The message cache (spec-modelled)

`HTTPClientBase.__init__` declares the message store `_messages` and its
configurable capacity `max_messages` (default 1000), but no insertion path
enforcing the capacity appears in the sources; the definition below is
modelled from the specification. -/

/-- Modelled from the spec: the size-bounded message cache.  The sources only
declare the `_messages` store and `max_messages` in `HTTPClientBase.__init__`;
the insertion path is missing, so it is modelled from the spec sections 3 and
4.4: entries are stored by identifier, a second insertion with the same
identifier replaces the prior entry, and insertion beyond capacity evicts the
oldest-inserted entry. -/
structure MessageCache (ι π : Type) where
  capacity : Nat
  entries : List (ι × π)

def MessageCache.insert {ι π : Type} [DecidableEq ι] (c : MessageCache ι π)
    (id : ι) (msg : π) : MessageCache ι π :=
  let replaced :=
    if id ∈ c.entries.map Prod.fst then
      c.entries.map (fun e => if e.1 = id then (id, msg) else e)
    else c.entries ++ [(id, msg)]
  let bounded :=
    if c.capacity < replaced.length then replaced.drop (replaced.length - c.capacity)
    else replaced
  ⟨c.capacity, bounded⟩

/-- Claim C9: a capacity-1000 message cache holding 1000 messages evicts
exactly the first-inserted entry when a fresh 1001st message is inserted
(insertion order), and insertion never grows the cache beyond its configured
capacity. -/
theorem message_cache_eviction {ι π : Type} [DecidableEq ι]
    (c : MessageCache ι π) (id : ι) (msg : π)
    (hcap : c.capacity = 1000) (hfull : c.entries.length = 1000)
    (hfresh : id ∉ c.entries.map Prod.fst) :
    (c.insert id msg).entries = c.entries.tail ++ [(id, msg)] ∧
    (∀ (c2 : MessageCache ι π) (id2 : ι) (m2 : π),
      c2.entries.length ≤ c2.capacity →
      (c2.insert id2 m2).entries.length ≤ c2.capacity) := by
  constructor
  · simp only [MessageCache.insert]
    rw [if_neg hfresh]
    have hlen : (c.entries ++ [(id, msg)]).length = 1001 := by simp [hfull]
    rw [if_pos (by rw [hlen, hcap]; omega)]
    rw [hlen, hcap]
    show (c.entries ++ [(id, msg)]).drop 1 = c.entries.tail ++ [(id, msg)]
    rw [List.drop_append_eq_append_drop]
    simp [hfull, List.drop_one]
  · intro c2 id2 m2 hle
    simp only [MessageCache.insert]
    split
    · split
      · rw [List.length_drop]
        omega
      · next h2 =>
        rw [List.length_map] at h2 ⊢
        omega
    · split
      · rw [List.length_drop]
        omega
      · next h2 =>
        rw [List.length_append] at h2 ⊢
        simp only [List.length_cons, List.length_nil] at h2 ⊢
        omega

/-- A concrete full capacity-1000 cache: identifiers 0 through 999. -/
def msgCache1000 : MessageCache Nat Nat :=
  ⟨1000, (List.range 1000).map (fun i => (i, 0))⟩

/-- Claim C9 witness: the theorem applied to the concrete full cache and the
fresh identifier 1000. -/
theorem message_cache_eviction_witness :
    (msgCache1000.capacity = 1000 ∧ msgCache1000.entries.length = 1000 ∧
      1000 ∉ msgCache1000.entries.map Prod.fst) ∧
    ((msgCache1000.insert 1000 7).entries =
      msgCache1000.entries.tail ++ [(1000, 7)] ∧
    ∀ (c2 : MessageCache Nat Nat) (id2 m2 : Nat),
      c2.entries.length ≤ c2.capacity →
      (c2.insert id2 m2).entries.length ≤ c2.capacity) :=
  have hfull : msgCache1000.entries.length = 1000 := by
    simp [msgCache1000]
  have hfresh : 1000 ∉ msgCache1000.entries.map Prod.fst := by
    simp [msgCache1000, List.map_map, List.mem_map, List.mem_range]
  ⟨⟨rfl, hfull, hfresh⟩, message_cache_eviction msgCache1000 1000 7 rfl hfull hfresh⟩

/-! ## Message parameter validation (`http.py`, `handle_message_parameters`)

Arguments defaulting to the `MISSING` sentinel are modelled by `Option`
(`none` is `MISSING`); `content` and `embed` additionally admit an explicit
Python `None`, hence the nested `Option`. -/

structure File where
  fp : String
  filename : String
  deriving DecidableEq, Repr

/-- An embed is represented by the dictionary its `to_dict` produces. -/
structure Embed where
  to_dict : List (String × String)
  deriving DecidableEq, Repr

inductive PVal where
  | str (s : String)
  | null
  | bool (b : Bool)
  | strList (l : List String)
  | dictList (l : List (List (String × String)))
  deriving DecidableEq, Repr

inductive PyError where
  | typeError (msg : String)
  | valueError (msg : String)
  deriving DecidableEq, Repr

inductive MultipartEntry where
  | payloadJson (payload : List (String × PVal))
  | filePart (index : Nat) (fp : String) (filename : String)
  deriving DecidableEq, Repr

structure MultipartParameters where
  payload : Option (List (String × PVal))
  multipart : List MultipartEntry
  files : Option (List File)
  deriving DecidableEq, Repr

/-- The keyword arguments of `handle_message_parameters`; `private_flag`
stands for the Python keyword `private`. -/
structure MessageParams where
  content : Option (Option String)
  username : Option String
  avatar_url : Option String
  file : Option File
  files : Option (List File)
  embed : Option (Option Embed)
  embeds : Option (List Embed)
  reply_to : Option (List String)
  silent : Option Bool
  private_flag : Option Bool
  hide_preview_urls : Option (List String)
  deriving DecidableEq, Repr

def embedsTooMany (p : MessageParams) : Bool :=
  match p.embeds with
  | some es => decide (10 < es.length)
  | none => false

/-- The `files` list after the `file` substitution. -/
def effectiveFiles (p : MessageParams) : Option (List File) :=
  match p.file with
  | some f => some [f]
  | none => p.files

/-- The payload dictionary, with keys in Python insertion order. -/
def buildPayload (p : MessageParams) : List (String × PVal) :=
  (match p.embeds with
   | some es => [("embeds", .dictList (es.map Embed.to_dict))]
   | none => [])
  ++ (match p.embed with
      | some (some e) => [("embeds", .dictList [e.to_dict])]
      | some none => [("embeds", .dictList [])]
      | none => [])
  ++ (match p.content with
      | some (some s) => [("content", .str s)]
      | some none => [("content", .null)]
      | none => [])
  ++ (match p.reply_to with
      | some l => [("replyMessageIds", .strList l)]
      | none => [])
  ++ (match p.silent with
      | some b => [("isSilent", .bool b)]
      | none => [])
  ++ (match p.private_flag with
      | some b => [("isPrivate", .bool b)]
      | none => [])
  ++ (match p.hide_preview_urls with
      | some l => [("hiddenLinkPreviewUrls", .strList l)]
      | none => [])
  ++ (match p.username with
      | some u => if u = "" then [] else [("username", .str u)]
      | none => [])
  ++ (match p.avatar_url with
      | some a => if a = "" then [] else [("avatar_url", .str a)]
      | none => [])

/-- The returned `MultipartParameters`: with a truthy file list the payload
moves into the first multipart part and the parts for the files follow by
index; otherwise the payload is returned directly. -/
def finishParams (p : MessageParams) : MultipartParameters :=
  match effectiveFiles p with
  | some (f :: fs) =>
    { payload := none,
      multipart := .payloadJson (buildPayload p) ::
        ((f :: fs).enum.map (fun fi => .filePart fi.1 fi.2.fp fi.2.filename)),
      files := some (f :: fs) }
  | some [] => { payload := some (buildPayload p), multipart := [], files := some [] }
  | none => { payload := some (buildPayload p), multipart := [], files := none }

def handle_message_parameters (p : MessageParams) : Except PyError MultipartParameters :=
  if p.files.isSome && p.file.isSome then
    .error (.typeError "Cannot mix file and files keyword arguments.")
  else if p.embeds.isSome && p.embed.isSome then
    .error (.typeError "Cannot mix embed and embeds keyword arguments.")
  else if embedsTooMany p then
    .error (.valueError "embeds has a maximum of 10 elements.")
  else .ok (finishParams p)

/-- An argument set supplying both `file` and `files` together with eleven
embeds. -/
def paramsMixedWith11Embeds : MessageParams where
  content := none
  username := none
  avatar_url := none
  file := some ⟨"fp-a", "a.png"⟩
  files := some [⟨"fp-b", "b.png"⟩]
  embed := none
  embeds := some (List.replicate 11 ⟨[]⟩)
  reply_to := none
  silent := none
  private_flag := none
  hide_preview_urls := none

/-- Claim C10 counterexample: an argument set with eleven embeds that also
mixes `file` and `files` raises `TypeError`, not `ValueError` — the mixing
checks run before the embed count check, so `ValueError` is not raised
whenever the embeds sequence has more than 10 elements. -/
theorem handle_message_parameters_counterexample :
    handle_message_parameters paramsMixedWith11Embeds =
      .error (.typeError "Cannot mix file and files keyword arguments.") := by
  rfl

/-- Claim C10 (amended): `handle_message_parameters` raises `TypeError`
whenever both `file` and `files` are supplied and whenever both `embed` and
`embeds` are supplied; when neither mixing condition holds (those TypeErrors
take precedence) it raises `ValueError` whenever the embeds sequence has more
than 10 elements; and for every input violating none of the three conditions
the validation passes and a `MultipartParameters` value is returned. -/
theorem handle_message_parameters_validation (p : MessageParams) :
    ((p.file.isSome = true ∧ p.files.isSome = true) →
      ∃ m, handle_message_parameters p = .error (.typeError m)) ∧
    ((p.embed.isSome = true ∧ p.embeds.isSome = true) →
      ∃ m, handle_message_parameters p = .error (.typeError m)) ∧
    (¬(p.file.isSome = true ∧ p.files.isSome = true) →
      ¬(p.embed.isSome = true ∧ p.embeds.isSome = true) →
      ∀ es, p.embeds = some es → 10 < es.length →
        handle_message_parameters p =
          .error (.valueError "embeds has a maximum of 10 elements.")) ∧
    (¬(p.file.isSome = true ∧ p.files.isSome = true) →
      ¬(p.embed.isSome = true ∧ p.embeds.isSome = true) →
      (∀ es, p.embeds = some es → es.length ≤ 10) →
      handle_message_parameters p = .ok (finishParams p)) := by
  refine ⟨?_, ?_, ?_, ?_⟩
  · intro h
    exact ⟨"Cannot mix file and files keyword arguments.",
      by simp [handle_message_parameters, h.1, h.2]⟩
  · intro h
    by_cases h1 : (p.files.isSome && p.file.isSome) = true
    · exact ⟨"Cannot mix file and files keyword arguments.",
        by simp [handle_message_parameters, h1]⟩
    · refine ⟨"Cannot mix embed and embeds keyword arguments.", ?_⟩
      rw [handle_message_parameters, if_neg (by simpa using h1),
        if_pos (by simp [h.1, h.2])]
  · intro h1 h2 es hes hlen
    have hb1 : (p.files.isSome && p.file.isSome) = false := by
      rcases hf : p.file.isSome <;> rcases hg : p.files.isSome <;> simp_all
    have hb2 : (p.embeds.isSome && p.embed.isSome) = false := by
      rcases hf : p.embed.isSome <;> rcases hg : p.embeds.isSome <;> simp_all
    rw [handle_message_parameters, if_neg (by simp [hb1]), if_neg (by simp [hb2]),
      if_pos (by simp [embedsTooMany, hes, hlen])]
  · intro h1 h2 hlen
    have hb1 : (p.files.isSome && p.file.isSome) = false := by
      rcases hf : p.file.isSome <;> rcases hg : p.files.isSome <;> simp_all
    have hb2 : (p.embeds.isSome && p.embed.isSome) = false := by
      rcases hf : p.embed.isSome <;> rcases hg : p.embeds.isSome <;> simp_all
    have hb3 : embedsTooMany p = false := by
      rw [embedsTooMany]
      rcases hes : p.embeds with _ | es
      · rfl
      · simpa using hlen es hes
    rw [handle_message_parameters, if_neg (by simp [hb1]), if_neg (by simp [hb2]),
      if_neg (by simp [hb3])]

/-- Claim C10 witness: the amended theorem applied to concrete argument sets
covering each of the four cases. -/
theorem handle_message_parameters_validation_witness :
    (∃ m, handle_message_parameters
      { paramsMixedWith11Embeds with embeds := none } = .error (.typeError m)) ∧
    (∃ m, handle_message_parameters
      { paramsMixedWith11Embeds with
        file := none
        files := none
        embed := some none } = .error (.typeError m)) ∧
    (handle_message_parameters
      { paramsMixedWith11Embeds with file := none, files := none } =
        .error (.valueError "embeds has a maximum of 10 elements.")) ∧
    (handle_message_parameters
      { paramsMixedWith11Embeds with
        file := none
        files := none
        embeds := none
        content := some (some "hello") } =
      .ok (finishParams
        { paramsMixedWith11Embeds with
          file := none
          files := none
          embeds := none
          content := some (some "hello") })) :=
  ⟨(handle_message_parameters_validation
      { paramsMixedWith11Embeds with embeds := none }).1 ⟨rfl, rfl⟩,
    (handle_message_parameters_validation
      { paramsMixedWith11Embeds with
        file := none
        files := none
        embed := some none }).2.1 ⟨rfl, rfl⟩,
    (handle_message_parameters_validation
      { paramsMixedWith11Embeds with file := none, files := none }).2.2.1
      (by decide) (by decide) (List.replicate 11 ⟨[]⟩) rfl (by decide),
    (handle_message_parameters_validation
      { paramsMixedWith11Embeds with
        file := none
        files := none
        embeds := none
        content := some (some "hello") }).2.2.2
      (by decide) (by decide) (fun es hes => nomatch hes)⟩

end Agnostica
